import Mathlib

/-!
Verification development for the TeacherBot frontend session layer.

The definitions below are shallow embeddings of the TypeScript sources:
  - frontend/src/stores/exerciseStore.ts   (submission grading state machine)
  - frontend/src/stores/nodeStore.ts       (node selection with single-flight dedup)
  - frontend/src/app/dashboard/page.tsx    (localStorage content cache)
  - the documented ChatService.process_message tool-calling loop.

Asynchronous store actions are modelled as pure functions: each takes the
current store state plus the outcome of its awaited API call (supplied as an
oracle argument) and returns the new state together with explicit descriptions
of the side effects the action performs (whether the API was invoked, and any
timer it schedules as a pair of delay in milliseconds and the attempt number
passed to the scheduled callback).  JavaScript wall-clock values are natural
numbers of milliseconds.
-/

/-! ## Exercise store (exerciseStore.ts) -/

/-- Polling configuration, exerciseStore.ts lines 5-8. -/
def MAX_POLL_ATTEMPTS : Nat := 10

/-- Initial poll interval in milliseconds. -/
def INITIAL_POLL_INTERVAL : Nat := 1000

/-- Poll interval cap in milliseconds. -/
def MAX_POLL_INTERVAL : Nat := 8000

/-- Submission status union type of the store. -/
inductive SubmissionStatus where
  | idle
  | submitting
  | grading
  | completed
deriving DecidableEq, Repr

/-- A grading result as returned by api.getExerciseResult; the store only
inspects the status field, the rest is carried opaquely. -/
structure ExerciseResult where
  status : String
  payload : String
deriving DecidableEq, Repr

/-- The fields of the zustand exercise store that the modelled actions read or
write.  The current exercise and editor code are carried opaquely. -/
structure ExerciseState where
  currentExercise : Option String
  editorCode : String
  submissionStatus : SubmissionStatus
  results : Option ExerciseResult
  isLoading : Bool
  error : Option String
  pollAttempts : Nat
  lastSubmissionTime : Nat
deriving DecidableEq, Repr

/-- The initial store state (exerciseStore.ts lines 30-37). -/
def initialExerciseState : ExerciseState :=
  { currentExercise := none
    editorCode := ""
    submissionStatus := .idle
    results := none
    isLoading := false
    error := none
    pollAttempts := 0
    lastSubmissionTime := 0 }

/-- reset (exerciseStore.ts lines 140-148): clears everything except
isLoading and lastSubmissionTime, which the source does not touch. -/
def reset (s : ExerciseState) : ExerciseState :=
  { s with
    currentExercise := none
    editorCode := ""
    submissionStatus := .idle
    results := none
    error := none
    pollAttempts := 0 }

/-- Models the JavaScript idiom msg || fallback used for error details. -/
def errorOr (msg : Option String) (fallback : String) : String :=
  msg.getD fallback

/-- Outcome of the awaited api.getExerciseResult call inside checkResult:
either a result object or a thrown API error with optional detail. -/
inductive PollOutcome where
  | result (r : ExerciseResult)
  | apiError (msg : Option String)
deriving DecidableEq, Repr

/-- checkResult (exerciseStore.ts lines 93-126).  Output: the new store
state, whether the result API was actually polled, and the timer scheduled by
setTimeout, if any, as (delay in ms, attempt argument of the callback). -/
def checkResult (s : ExerciseState) (attempt : Nat) (outcome : PollOutcome) :
    ExerciseState × Bool × Option (Nat × Nat) :=
  if attempt > MAX_POLL_ATTEMPTS then
    ({ s with
        error := some "Grading is taking longer than expected. Please refresh to check results."
        submissionStatus := .idle },
      false, none)
  else
    match outcome with
    | .result r =>
      if r.status = "completed" then
        ({ s with results := some r, submissionStatus := .completed, pollAttempts := 0 },
          true, none)
      else
        ({ s with pollAttempts := attempt },
          true,
          some (min (INITIAL_POLL_INTERVAL * 2 ^ (attempt - 1)) MAX_POLL_INTERVAL, attempt + 1))
    | .apiError msg =>
      ({ s with
          error := some (errorOr msg "Failed to get results")
          submissionStatus := .idle
          pollAttempts := 0 },
        true, none)

/-- Outcome of the awaited api.submitExercise call (and, on the synchronous
path, the follow-up api.getExerciseResult call) inside submitCode. -/
inductive SubmitOutcome where
  | completed (r : ExerciseResult)
  | async (submissionId : String)
  | apiError (msg : Option String)
deriving DecidableEq, Repr

/-- The state written by the first set call of a non-throttled submitCode
(exerciseStore.ts line 70): status submitting, error cleared, poll counter
cleared, lastSubmissionTime stamped with the current time. -/
def submitCodeStart (s : ExerciseState) (now : Nat) : ExerciseState :=
  { s with
    submissionStatus := .submitting
    error := none
    pollAttempts := 0
    lastSubmissionTime := now }

/-- submitCode (exerciseStore.ts lines 60-91).  The throttle guard
(now - lastSubmission < 2000, over integers) is now < lastSubmissionTime + 2000
over naturals.  Output: new state, whether grading was invoked
(api.submitExercise called), and the scheduled poll timer, if any. -/
def submitCode (s : ExerciseState) (now : Nat) (outcome : SubmitOutcome) :
    ExerciseState × Bool × Option (Nat × Nat) :=
  if now < s.lastSubmissionTime + 2000 then
    (s, false, none)
  else
    let s1 := submitCodeStart s now
    match outcome with
    | .completed r =>
      ({ s1 with results := some r, submissionStatus := .completed }, true, none)
    | .async _ =>
      ({ s1 with submissionStatus := .grading }, true, some (INITIAL_POLL_INTERVAL, 1))
    | .apiError msg =>
      ({ s1 with
          error := some (errorOr msg "Failed to submit exercise")
          submissionStatus := .idle },
        true, none)

/-- requestHint (exerciseStore.ts lines 128-138): forwards the backend reply;
on failure it records the error detail in the store and rethrows the original
error (modelled as returning it in the Except). -/
def requestHintStore (s : ExerciseState) (backend : Except (Option String) String) :
    ExerciseState × Except (Option String) String :=
  match backend with
  | .ok h => (s, .ok h)
  | .error msg =>
    ({ s with error := some (errorOr msg "Failed to get hint") }, .error msg)

/-- An exercise hint with its reveal threshold (spec section 4.3). -/
structure ExerciseHint where
  level : Nat
  threshold : Nat
  text : String
deriving DecidableEq, Repr

/-- Modelled from the spec: the backend hint endpoint behind
api.getHint is not part of the frontend sources.  Per spec section 4.3, hint k
is revealable only once the recorded attempt/hint count of the caller meets
the threshold of hint k; a request beyond the highest met level is rejected
explicitly with an error rather than silently capped to a lower hint. -/
def hintEndpoint (hints : List ExerciseHint) (recordedCount : Nat) (k : Nat) :
    Except (Option String) String :=
  match hints.find? (fun h => h.level = k) with
  | some h =>
    if h.threshold ≤ recordedCount then .ok h.text
    else .error (some "Hint not yet unlocked")
  | none => .error (some "No such hint")

/-! ## Node store (nodeStore.ts) -/

/-- A fetched node detail; selectNode only inspects node_id, the merged
node/progress payload is carried opaquely. -/
structure NodeDetail where
  node_id : String
  payload : String
deriving DecidableEq, Repr

/-- Key lookup in an association list, mirroring JavaScript object indexing
m[k] (undefined when the key is absent). -/
def lookupKey {α β : Type} [DecidableEq α] : List (α × β) → α → Option β
  | [], _ => none
  | (k0, v0) :: rest, k => if k0 = k then some v0 else lookupKey rest k

/-- Replace-or-append update of an association list, mirroring the JavaScript
object update m[k] = v (and the spread idiom that rebinds one key). -/
def setKey {α β : Type} [DecidableEq α] : List (α × β) → α → β → List (α × β)
  | [], k, v => [(k, v)]
  | (k0, v0) :: rest, k, v =>
    if k0 = k then (k, v) :: rest else (k0, v0) :: setKey rest k v

/-- The fields of the zustand node store (nodeStore.ts lines 19-25).  The
pending-requests record maps a node id to a live promise or undefined; only
membership is observable, so it is modelled as the list of ids holding a live
promise (clearing a key to undefined removes it). -/
structure NodeState where
  nodes : List String
  currentNode : Option NodeDetail
  isLoading : Bool
  error : Option String
  nodesCache : List (String × NodeDetail)
  pendingRequests : List String
deriving DecidableEq, Repr

/-- The initial node store state. -/
def initialNodeState : NodeState :=
  { nodes := []
    currentNode := none
    isLoading := false
    error := none
    nodesCache := []
    pendingRequests := [] }

/-- How the synchronous prefix of a selectNode call returned. -/
inductive SelectOutcome where
  | alreadySelected
  | servedFromCache
  | joinedPending
  | fetchIssued
deriving DecidableEq, Repr

/-- The synchronous prefix of selectNode (nodeStore.ts lines 40-85): runs
atomically on the event loop up to the await inside the request closure.  On
the miss path the network fetch is issued and the pending promise is
registered before control returns, so a later caller in the same tick
observes the pending entry.  fetchIssued is the only outcome that issues a
network fetch; joinedPending returns the already-pending promise. -/
def selectNodeSync (s : NodeState) (nodeId : String) : NodeState × SelectOutcome :=
  if s.currentNode.map NodeDetail.node_id = some nodeId then
    (s, .alreadySelected)
  else
    match lookupKey s.nodesCache nodeId with
    | some nd => ({ s with currentNode := some nd, isLoading := false }, .servedFromCache)
    | none =>
      if nodeId ∈ s.pendingRequests then
        (s, .joinedPending)
      else
        ({ s with
            isLoading := true
            error := none
            pendingRequests := nodeId :: s.pendingRequests },
          .fetchIssued)

/-- Outcome of the awaited api.getNode call of a selectNode fetch. -/
inductive NodeFetchOutcome where
  | ok (nd : NodeDetail)
  | apiError (msg : Option String)
deriving DecidableEq, Repr

/-- The continuation of a selectNode fetch after its await (nodeStore.ts
lines 61-79): stores the result, extends the memo cache, and clears the
pending entry (sets it to undefined). -/
def selectNodeComplete (s : NodeState) (nodeId : String) (outcome : NodeFetchOutcome) :
    NodeState :=
  match outcome with
  | .ok nd =>
    { s with
      currentNode := some nd
      isLoading := false
      nodesCache := setKey s.nodesCache nodeId nd
      pendingRequests := s.pendingRequests.erase nodeId }
  | .apiError msg =>
    { s with
      error := some (errorOr msg "Failed to load node")
      isLoading := false
      pendingRequests := s.pendingRequests.erase nodeId }

/-- n back-to-back selectNode calls for the same node id, all arriving before
any fetch completes (their synchronous prefixes are serialized by the event
loop).  Returns the final state and how many of the calls issued a network
fetch. -/
def selectNodeMany (s : NodeState) (nodeId : String) : Nat → NodeState × Nat
  | 0 => (s, 0)
  | n + 1 =>
    let p := selectNodeSync s nodeId
    let q := selectNodeMany p.1 nodeId n
    (q.1, (if p.2 = SelectOutcome.fetchIssued then 1 else 0) + q.2)

/-! ## Content cache (dashboard/page.tsx) -/

/-- Cache expiry horizon in hours (page.tsx line 245). -/
def CACHE_EXPIRY_HOURS : Nat := 24

/-- Step metadata as listed in the table of contents. -/
structure StepMetadata where
  step_number : Nat
  step_type : String
  title : String
  section_name : String
deriving DecidableEq, Repr

/-- A curriculum step; the cache treats step content opaquely, so the
lecture/exercise union is collapsed to its identifying fields. -/
structure Step where
  step_type : String
  title : String
  content : String
deriving DecidableEq, Repr

/-- A cached content entry (page.tsx lines 247-253); stepDataCache is the
step-number-to-content object, modelled as an association list. -/
structure CachedContent where
  nodeTitle : String
  totalSteps : Nat
  steps : List StepMetadata
  stepDataCache : List (Nat × Step)
  cachedAt : Nat
deriving DecidableEq, Repr

/-- Hours elapsed since an entry was cached (page.tsx line 289); real-valued
division as in JavaScript, modelled over the rationals. -/
def hoursSinceCached (now cachedAt : Nat) : ℚ :=
  ((now : ℚ) - (cachedAt : ℚ)) / (1000 * 60 * 60)

/-- getFromCache (page.tsx lines 275-302) for the localStorage key of one
(user, node) pair, whose slot is the Option argument.  Returns the value the
caller receives and the slot after the call (removeItem clears it on
expiry). -/
def getFromCache (slot : Option CachedContent) (now : Nat) :
    Option CachedContent × Option CachedContent :=
  match slot with
  | none => (none, none)
  | some data =>
    if hoursSinceCached now data.cachedAt > (CACHE_EXPIRY_HOURS : ℚ) then
      (none, none)
    else
      (some data, some data)

/-- A Partial CachedContent argument of saveToCache: present fields override
the existing entry under the object spread. -/
structure CachedContentPatch where
  nodeTitle : Option String := none
  totalSteps : Option Nat := none
  steps : Option (List StepMetadata) := none
  stepDataCache : Option (List (Nat × Step)) := none
  cachedAt : Option Nat := none
deriving DecidableEq, Repr

/-- The fallback entry used when no live cache entry exists
(page.tsx lines 309-315). -/
def defaultCachedContent (now : Nat) : CachedContent :=
  { nodeTitle := ""
    totalSteps := 0
    steps := []
    stepDataCache := []
    cachedAt := now }

/-- The object spread of the existing entry with the patch. -/
def applyPatch (e : CachedContent) (p : CachedContentPatch) : CachedContent :=
  { nodeTitle := p.nodeTitle.getD e.nodeTitle
    totalSteps := p.totalSteps.getD e.totalSteps
    steps := p.steps.getD e.steps
    stepDataCache := p.stepDataCache.getD e.stepDataCache
    cachedAt := p.cachedAt.getD e.cachedAt }

/-- saveToCache (page.tsx lines 304-328): merge the patch over the live
entry (or the fallback), then force cachedAt to
existing.cachedAt || Date.now(), the JavaScript or treating 0 as falsy. -/
def saveToCache (slot : Option CachedContent) (now : Nat) (p : CachedContentPatch) :
    Option CachedContent :=
  let existing := ((getFromCache slot now).1).getD (defaultCachedContent now)
  let updated := applyPatch existing p
  some { updated with cachedAt := if existing.cachedAt = 0 then now else existing.cachedAt }

/-- cacheStepData (page.tsx lines 330-344): re-reads the entry and, when one
is live, rebinds the given step number to the given data; when the read comes
back empty nothing is written (the slot keeps the effect of the read, which
may have removed an expired entry). -/
def cacheStepData (slot : Option CachedContent) (now : Nat) (stepNumber : Nat)
    (stepData : Step) : Option CachedContent :=
  match getFromCache slot now with
  | (some cached, _) =>
    some { cached with stepDataCache := setKey cached.stepDataCache stepNumber stepData }
  | (none, slot1) => slot1

/-- The cache-relevant behaviour of goToStep (page.tsx lines 480-513),
taken as one atomic run of the navigation with the fetched step supplied as
an oracle: out-of-range step numbers bail out; a cached step is served
without fetching; otherwise the step is fetched and handed to cacheStepData.
Returns the slot after the run and whether a network fetch was issued. -/
def goToStep (totalSteps : Nat) (slot : Option CachedContent) (now : Nat)
    (stepNumber : Nat) (fetched : Step) : Option CachedContent × Bool :=
  if stepNumber < 1 ∨ totalSteps < stepNumber then
    (slot, false)
  else
    match getFromCache slot now with
    | (some cached, slot1) =>
      match lookupKey cached.stepDataCache stepNumber with
      | some _ => (slot1, false)
      | none => (cacheStepData slot1 now stepNumber fetched, true)
    | (none, slot1) => (cacheStepData slot1 now stepNumber fetched, true)

/-- The synchronous prefix of initLearning (page.tsx lines 424-449): check
the localStorage cache; when a live entry has a positive step total and step 1
cached, serve from cache with no fetch; otherwise api.startLearningInstant is
invoked before the first suspension point.  No in-flight request is recorded
anywhere.  Returns the slot after the check and whether a fetch was issued. -/
def initLearningSync (slot : Option CachedContent) (now : Nat) :
    Option CachedContent × Bool :=
  match getFromCache slot now with
  | (some cached, slot1) =>
    if 0 < cached.totalSteps ∧ (lookupKey cached.stepDataCache 1).isSome then
      (slot1, false)
    else
      (slot1, true)
  | (none, slot1) => (slot1, true)

/-! ## Conversation orchestrator (documented ChatService.process_message) -/

/-- A model response; the loop of process_message inspects only stop_reason,
the content is carried opaquely. -/
structure ModelResponse where
  stop_reason : String
  content : String
deriving DecidableEq, Repr

/-- The tool-calling loop of ChatService.process_message: response i of the
oracle f is what the (i+1)-th model call returns, and the loop repeats while
response.stop_reason == "tool_use" with no other exit.  The fuel argument
bounds how many model calls we watch: some (i, r) means the loop stopped at
response i (having made i+1 model calls) with final response r; none means the
loop was still running after fuel model calls. -/
def processMessageLoop (f : Nat → ModelResponse) : Nat → Nat → Option (Nat × ModelResponse)
  | 0, _ => none
  | fuel + 1, i =>
    if (f i).stop_reason = "tool_use" then processMessageLoop f fuel (i + 1)
    else some (i, f i)

/-! ## Concrete values used by counterexamples and witnesses -/

/-- A grading result still in progress. -/
def pendingResult : ExerciseResult := ⟨"pending", "grading in progress"⟩

/-- A completed grading result, as delivered by a stale poll timer. -/
def staleResult : ExerciseResult := ⟨"completed", "stale verdict"⟩

/-- A completed grading result for witnesses. -/
def doneResult : ExerciseResult := ⟨"completed", "score 100"⟩

/-- Original content of step 1. -/
def stepA : Step := ⟨"lecture_section", "Intro", "original content"⟩

/-- Different content for step 1, as produced by a later fetch. -/
def stepB : Step := ⟨"lecture_section", "Intro", "refetched content"⟩

/-- A live cache entry holding step 1. -/
def cachedWithStep1 : CachedContent :=
  { nodeTitle := "Docker", totalSteps := 3, steps := [], stepDataCache := [(1, stepA)],
    cachedAt := 50 }

/-- A cache entry whose recorded cachedAt is 0, which JavaScript treats as
falsy. -/
def zeroTimeEntry : CachedContent :=
  { nodeTitle := "Docker", totalSteps := 1, steps := [], stepDataCache := [],
    cachedAt := 0 }

/-- A store state whose last submission happened at time 10000. -/
def submittedAt10000 : ExerciseState :=
  { initialExerciseState with lastSubmissionTime := 10000 }

/-- A node store state whose current node is n1. -/
def selectedN1 : NodeState :=
  { initialNodeState with currentNode := some ⟨"n1", "detail"⟩ }

/-- A model-response oracle that requests tool use forever. -/
def allToolUse : Nat → ModelResponse := fun _ => ⟨"tool_use", "invoke a tool"⟩

/-- A model-response oracle that requests tool use twice and then answers. -/
def twoToolsThenText : Nat → ModelResponse :=
  fun j => if j < 2 then ⟨"tool_use", "invoke a tool"⟩ else ⟨"end_turn", "final answer"⟩

/-- A two-hint ladder: hint 1 unlocks at count 1, hint 2 at count 3. -/
def hintsExample : List ExerciseHint :=
  [⟨1, 1, "re-read the prompt"⟩, ⟨2, 3, "use a loop"⟩]

/-! ## Helper lemmas -/

/-- Looking a key up after a replace-or-append update. -/
theorem lookupKey_setKey {α β : Type} [DecidableEq α]
    (l : List (α × β)) (k j : α) (v : β) :
    lookupKey (setKey l k v) j = if j = k then some v else lookupKey l j := by
  induction l with
  | nil =>
    by_cases h : j = k
    · subst h; simp [setKey, lookupKey]
    · simp [setKey, lookupKey, h, Ne.symm h]
  | cons hd tl ih =>
    obtain ⟨k0, v0⟩ := hd
    by_cases hk0 : k0 = k
    · subst hk0
      by_cases hj : j = k0
      · subst hj; simp [setKey, lookupKey]
      · simp [setKey, lookupKey, hj, Ne.symm hj]
    · by_cases hj : j = k0
      · subst hj
        simp [setKey, lookupKey, hk0]
      · simp [setKey, lookupKey, hk0, hj, Ne.symm hj, ih]

/-- The expiry test of getFromCache, phrased over the naturals: the rational
hours-since-cached exceeds 24 exactly when more than 86400000 ms have
passed. -/
theorem hoursSinceCached_gt_iff (now ca : Nat) :
    hoursSinceCached now ca > (CACHE_EXPIRY_HOURS : ℚ) ↔ ca + 86400000 < now := by
  unfold hoursSinceCached CACHE_EXPIRY_HOURS
  rw [gt_iff_lt, lt_div_iff₀ (by norm_num)]
  rw [show ((24 : ℕ) : ℚ) * (1000 * 60 * 60) = 86400000 by norm_num]
  constructor
  · intro h
    by_contra hc
    push_neg at hc
    have h2 : (now : ℚ) ≤ (ca : ℚ) + 86400000 := by exact_mod_cast hc
    linarith
  · intro h
    have h2 : (ca : ℚ) + 86400000 < (now : ℚ) := by exact_mod_cast h
    linarith

/-! ## Claim theorems -/

/-- C1, counterexample: the claim says the delay before the k-th poll attempt
is min(1000 * 2 ^ (k - 1), 8000), which for k = 2 is 2000 ms; but the timer
scheduled by the first unsuccessful poll attempt (which is the delay before
the 2nd attempt) is min(1000 * 2 ^ 0, 8000) = 1000 ms. -/
theorem checkResult_backoff_claim_false :
    (checkResult initialExerciseState 1 (.result pendingResult)).2.2 = some (1000, 2) ∧
    min (INITIAL_POLL_INTERVAL * 2 ^ (2 - 1)) MAX_POLL_INTERVAL = 2000 ∧
    (1000 : Nat) ≠ 2000 := by
  decide

/-- C1, amended: with base delay 1000, cap 8000 and max attempts 10, the
asynchronous submit path schedules the 1st attempt after the base delay of
1000 ms; the timer scheduled after the k-th unsuccessful attempt (1 ≤ k ≤ 10),
which is the delay before attempt k + 1, is min(1000 * 2 ^ (k - 1), 8000) —
so the delay before the k-th attempt is 1000 for k = 1 and
min(1000 * 2 ^ (k - 2), 8000) for 2 ≤ k ≤ 10; the 11th scheduled invocation
performs no further poll, reports the taking-longer condition, returns the
status to idle, and schedules nothing. -/
theorem checkResult_backoff_delays (s t : ExerciseState) (subId : String)
    (r : ExerciseResult) (k now : Nat)
    (hthr : t.lastSubmissionTime + 2000 ≤ now)
    (h1 : 1 ≤ k) (h2 : k ≤ MAX_POLL_ATTEMPTS) (hr : r.status ≠ "completed") :
    (submitCode t now (.async subId)).2.2 = some (INITIAL_POLL_INTERVAL, 1) ∧
    (checkResult s k (.result r)).2.2 =
      some (min (INITIAL_POLL_INTERVAL * 2 ^ (k - 1)) MAX_POLL_INTERVAL, k + 1) ∧
    checkResult s (MAX_POLL_ATTEMPTS + 1) (.result r) =
      ({ s with
          error := some "Grading is taking longer than expected. Please refresh to check results."
          submissionStatus := .idle }, false, none) := by
  have hng : ¬ now < t.lastSubmissionTime + 2000 := Nat.not_lt.mpr hthr
  have hk : ¬ k > MAX_POLL_ATTEMPTS := Nat.not_lt.mpr h2
  refine ⟨by simp [submitCode, hng], by simp [checkResult, hk, hr], by simp [checkResult]⟩

/-- C1 witness: a concrete run with a pending result at attempt 3. -/
theorem checkResult_backoff_delays_witness :
    (submitCode initialExerciseState 2000 (.async "sub1")).2.2 = some (INITIAL_POLL_INTERVAL, 1) ∧
    (checkResult initialExerciseState 3 (.result pendingResult)).2.2 = some (4000, 4) ∧
    checkResult initialExerciseState (MAX_POLL_ATTEMPTS + 1) (.result pendingResult) =
      ({ initialExerciseState with
          error := some "Grading is taking longer than expected. Please refresh to check results."
          submissionStatus := .idle }, false, none) := by
  have h := checkResult_backoff_delays initialExerciseState initialExerciseState "sub1"
    pendingResult 3 2000 (by decide) (by decide) (by decide) (by decide)
  exact ⟨h.1, h.2.1.trans (by decide), h.2.2⟩

/-- C2: a submitCode call within 2000 ms of the previous one is a silent
no-op — the state is returned unchanged and grading is not invoked; a call at
or after the cooldown boundary invokes grading exactly once and passes through
the submitting status, and any further call within 2000 ms of it is again a
silent no-op (so two calls within 2 s yield one grading invocation). -/
theorem submitCode_cooldown (s : ExerciseState) (now : Nat) (o : SubmitOutcome) :
    (now < s.lastSubmissionTime + 2000 → submitCode s now o = (s, false, none)) ∧
    (s.lastSubmissionTime + 2000 ≤ now →
      (submitCode s now o).2.1 = true ∧
      (submitCodeStart s now).submissionStatus = .submitting ∧
      ∀ t2 o2, t2 < now + 2000 →
        submitCode (submitCode s now o).1 t2 o2 = ((submitCode s now o).1, false, none)) := by
  constructor
  · intro h
    simp [submitCode, h]
  · intro h
    have hng : ¬ now < s.lastSubmissionTime + 2000 := Nat.not_lt.mpr h
    have hlast : (submitCode s now o).1.lastSubmissionTime = now := by
      cases o <;> simp [submitCode, hng, submitCodeStart]
    refine ⟨by cases o <;> simp [submitCode, hng], rfl, ?_⟩
    intro t2 o2 ht2
    have h2 : t2 < (submitCode s now o).1.lastSubmissionTime + 2000 := by
      rw [hlast]; exact ht2
    generalize hgen : (submitCode s now o).1 = s3 at h2 ⊢
    simp [submitCode, h2]

/-- C2 witness: a throttled call at 11000 after a submission at 10000, a
successful call at 13000, and a throttled follow-up at 14000. -/
theorem submitCode_cooldown_witness :
    submitCode submittedAt10000 11000 (.async "sub1") = (submittedAt10000, false, none) ∧
    (submitCode submittedAt10000 13000 (.async "sub1")).2.1 = true ∧
    (submitCodeStart submittedAt10000 13000).submissionStatus = .submitting ∧
    submitCode (submitCode submittedAt10000 13000 (.async "sub1")).1 14000 (.async "sub2") =
      ((submitCode submittedAt10000 13000 (.async "sub1")).1, false, none) := by
  have h := (submitCode_cooldown submittedAt10000 13000 (.async "sub1")).2 (by decide)
  exact ⟨(submitCode_cooldown submittedAt10000 11000 (.async "sub1")).1 (by decide),
    h.1, h.2.1, h.2.2 14000 (.async "sub2") (by decide)⟩

/-- C8, counterexample: checkResult has no liveness flag.  After reset() the
store is idle with no results, yet a stale poll timer that fires afterwards
(attempt 2, result completed) writes the stale verdict into the store and
marks the submission completed — the claim that a stale timer cannot modify
submission state is false. -/
theorem checkResult_stale_after_reset :
    (reset initialExerciseState).submissionStatus = .idle ∧
    (reset initialExerciseState).results = none ∧
    (checkResult (reset initialExerciseState) 2 (.result staleResult)).1.submissionStatus
      = .completed ∧
    (checkResult (reset initialExerciseState) 2 (.result staleResult)).1.results
      = some staleResult := by
  decide

/-- C8, amended: pending checkResult invocations check no liveness flag: for
any store state (in particular one just cleared by reset) and any attempt
within the cap, a completed result is applied unconditionally, overwriting
results and status.  Stale timers therefore can modify submission state; the
only invocations that do not apply a result are those beyond the attempt
cap or those whose API call fails. -/
theorem checkResult_applies_unconditionally (s : ExerciseState) (attempt : Nat)
    (r : ExerciseResult) (hatt : attempt ≤ MAX_POLL_ATTEMPTS) (hr : r.status = "completed") :
    checkResult s attempt (.result r) =
      ({ s with results := some r, submissionStatus := .completed, pollAttempts := 0 },
        true, none) := by
  have hng : ¬ attempt > MAX_POLL_ATTEMPTS := Nat.not_lt.mpr hatt
  simp [checkResult, hng, hr]

/-- C8 witness: the unconditional application at a concrete post-reset
state. -/
theorem checkResult_applies_unconditionally_witness :
    checkResult (reset initialExerciseState) 2 (.result doneResult) =
      ({ reset initialExerciseState with
          results := some doneResult, submissionStatus := .completed, pollAttempts := 0 },
        true, none) :=
  checkResult_applies_unconditionally (reset initialExerciseState) 2 doneResult
    (by decide) (by decide)

/-- C9: re-selecting the node that is already current is a no-op — the call
returns with the store state unchanged, serving the memoized selection, and
the outcome is not a fetch. -/
theorem selectNode_idempotent (s : NodeState) (nd : NodeDetail) (nodeId : String)
    (hsel : s.currentNode = some nd) (hid : nd.node_id = nodeId) :
    selectNodeSync s nodeId = (s, .alreadySelected) := by
  simp [selectNodeSync, hsel, hid]

/-- C9 witness: re-selecting n1 while n1 is current. -/
theorem selectNode_idempotent_witness :
    selectNodeSync selectedN1 "n1" = (selectedN1, .alreadySelected) :=
  selectNode_idempotent selectedN1 ⟨"n1", "detail"⟩ "n1" rfl rfl

/-- Helper: a read at or before the expiry horizon returns the entry whole
and keeps it stored. -/
theorem getFromCache_live (c : CachedContent) (now : Nat)
    (h : now ≤ c.cachedAt + 86400000) :
    getFromCache (some c) now = (some c, some c) := by
  have hng : ¬ hoursSinceCached now c.cachedAt > (CACHE_EXPIRY_HOURS : ℚ) := by
    rw [hoursSinceCached_gt_iff]; omega
  simp [getFromCache, hng]

/-- Helper: a read strictly after the expiry horizon removes the entry and
reports a miss. -/
theorem getFromCache_expired (c : CachedContent) (now : Nat)
    (h : c.cachedAt + 86400000 < now) :
    getFromCache (some c) now = (none, none) := by
  simp [getFromCache, (hoursSinceCached_gt_iff now c.cachedAt).mpr h]

/-- C3: for an entry written with timestamp cachedAt, a read later than
cachedAt + 24h (86400000 ms) treats the entry as absent and removes the whole
localStorage key, while a read within 24h returns the full entry and retains
it. -/
theorem getFromCache_expiry (c : CachedContent) (now : Nat) :
    (c.cachedAt + 86400000 < now → getFromCache (some c) now = (none, none)) ∧
    (now ≤ c.cachedAt + 86400000 → getFromCache (some c) now = (some c, some c)) :=
  ⟨getFromCache_expired c now, getFromCache_live c now⟩

/-- C3 witness: an entry cached at 50 read one millisecond past its horizon
and exactly at its horizon. -/
theorem getFromCache_expiry_witness :
    getFromCache (some cachedWithStep1) 86400051 = (none, none) ∧
    getFromCache (some cachedWithStep1) 86400050 =
      (some cachedWithStep1, some cachedWithStep1) :=
  ⟨(getFromCache_expiry cachedWithStep1 86400051).1 (by decide),
    (getFromCache_expiry cachedWithStep1 86400050).2 (by decide)⟩

/-- C10, counterexample: an existing live entry whose recorded cachedAt is 0
(falsy in JavaScript) does not keep its timestamp: merging an empty patch at
time 5 rewrites cachedAt to 5, extending the expiry horizon, because the
source computes cachedAt as existing.cachedAt || Date.now(). -/
theorem saveToCache_zero_cachedAt :
    zeroTimeEntry.cachedAt = 0 ∧
    getFromCache (some zeroTimeEntry) 5 = (some zeroTimeEntry, some zeroTimeEntry) ∧
    (saveToCache (some zeroTimeEntry) 5 ({} : CachedContentPatch)).map CachedContent.cachedAt
      = some 5 := by
  have hget : getFromCache (some zeroTimeEntry) 5 = (some zeroTimeEntry, some zeroTimeEntry) :=
    getFromCache_live zeroTimeEntry 5 (by decide)
  refine ⟨rfl, hget, ?_⟩
  simp only [saveToCache, hget]
  decide

/-- C10, amended: provided the live entry's recorded cachedAt is nonzero
(every truthy timestamp), both saveToCache (for any patch, even one carrying
a cachedAt field) and cacheStepData preserve the original cachedAt, so the
24-hour expiry horizon stays measured from the first write. -/
theorem saveToCache_preserves_cachedAt (c : CachedContent) (now : Nat)
    (p : CachedContentPatch) (k : Nat) (d : Step)
    (hlive : now ≤ c.cachedAt + 86400000) (hnz : c.cachedAt ≠ 0) :
    (saveToCache (some c) now p).map CachedContent.cachedAt = some c.cachedAt ∧
    (cacheStepData (some c) now k d).map CachedContent.cachedAt = some c.cachedAt := by
  have hget : getFromCache (some c) now = (some c, some c) := getFromCache_live c now hlive
  constructor
  · simp [saveToCache, hget, hnz]
  · simp [cacheStepData, hget]

/-- C10 witness: the entry cached at 50, patched and extended at time 60. -/
theorem saveToCache_preserves_cachedAt_witness :
    (saveToCache (some cachedWithStep1) 60 ({} : CachedContentPatch)).map
      CachedContent.cachedAt = some 50 ∧
    (cacheStepData (some cachedWithStep1) 60 2 stepB).map CachedContent.cachedAt
      = some 50 := by
  have h := saveToCache_preserves_cachedAt cachedWithStep1 60 ({} : CachedContentPatch) 2 stepB
    (by decide) (by decide)
  exact ⟨h.1.trans (by decide), h.2.trans (by decide)⟩

/-- C5, counterexample: cacheStepData does not protect an already-cached
step: called for step 1, which is already cached with stepA, it rebinds
step 1 to the newly fetched stepB — a stale fetch result can overwrite cached
step content. -/
theorem cacheStepData_overwrites :
    lookupKey cachedWithStep1.stepDataCache 1 = some stepA ∧
    stepA ≠ stepB ∧
    (cacheStepData (some cachedWithStep1) 60 1 stepB).map
      (fun c => lookupKey c.stepDataCache 1) = some (some stepB) := by
  have hget : getFromCache (some cachedWithStep1) 60 =
      (some cachedWithStep1, some cachedWithStep1) :=
    getFromCache_live cachedWithStep1 60 (by decide)
  refine ⟨by decide, by decide, ?_⟩
  simp only [cacheStepData, hget, Option.map_some]
  decide

/-- C5, amended: cacheStepData itself overwrites unconditionally; the guard
lives in its caller.  A whole non-interleaved goToStep run against a live
entry never changes the content of any already-cached step: it serves a
cached step without writing, and fetches and stores only a step that is
absent, extending the map incrementally.  Only a fetch completion interleaved
after the cache check (or the whole-map replacement in the initLearning save)
can overwrite. -/
theorem goToStep_preserves_cached_steps (totalSteps : Nat) (c : CachedContent)
    (now k j : Nat) (fetched v : Step)
    (hlive : now ≤ c.cachedAt + 86400000)
    (hj : lookupKey c.stepDataCache j = some v) :
    ∃ c2, (goToStep totalSteps (some c) now k fetched).1 = some c2 ∧
      lookupKey c2.stepDataCache j = some v := by
  have hget : getFromCache (some c) now = (some c, some c) := getFromCache_live c now hlive
  by_cases hrange : k = 0 ∨ totalSteps < k
  · exact ⟨c, by simp [goToStep, hrange], hj⟩
  · cases hk : lookupKey c.stepDataCache k with
    | some w =>
      exact ⟨c, by simp [goToStep, hrange, hget, hk], hj⟩
    | none =>
      refine ⟨{ c with stepDataCache := setKey c.stepDataCache k fetched }, ?_, ?_⟩
      · simp [goToStep, hrange, hget, hk, cacheStepData]
      · rw [lookupKey_setKey]
        by_cases hjk : j = k
        · subst hjk; rw [hj] at hk; cases hk
        · simp [hjk, hj]

/-- C5 witness: navigating to uncached step 2 leaves cached step 1 intact. -/
theorem goToStep_preserves_cached_steps_witness :
    ∃ c2, (goToStep 3 (some cachedWithStep1) 60 2 stepB).1 = some c2 ∧
      lookupKey c2.stepDataCache 1 = some stepA :=
  goToStep_preserves_cached_steps 3 cachedWithStep1 60 2 1 stepB stepA
    (by decide) (by decide)

/-- Helper: a selectNode call that finds a pending request for the node joins
it: no state change, no fetch, the pending promise is returned. -/
theorem selectNodeSync_joins (s : NodeState) (nodeId : String)
    (hcur : s.currentNode.map NodeDetail.node_id ≠ some nodeId)
    (hcache : lookupKey s.nodesCache nodeId = none)
    (hpend : nodeId ∈ s.pendingRequests) :
    selectNodeSync s nodeId = (s, .joinedPending) := by
  simp [selectNodeSync, hcur, hcache, hpend]

/-- Helper: while a request for the node is pending, any number of further
selectNode calls neither change the state nor issue a fetch. -/
theorem selectNodeMany_pending (s : NodeState) (nodeId : String) (n : Nat)
    (hcur : s.currentNode.map NodeDetail.node_id ≠ some nodeId)
    (hcache : lookupKey s.nodesCache nodeId = none)
    (hpend : nodeId ∈ s.pendingRequests) :
    selectNodeMany s nodeId n = (s, 0) := by
  induction n with
  | zero => rfl
  | succ m ih =>
    simp [selectNodeMany, selectNodeSync_joins s nodeId hcur hcache hpend, ih]

/-- C4, counterexample: the curriculum-content fetch of initLearning has no
in-flight dedup.  With no cached entry for the (user, node) key, the first
initLearning run issues a fetch and the slot is still empty when a second
concurrent run checks it before the first completes, so the second run issues
a fetch as well: two network fetches for one uncached key, not one. -/
theorem initLearning_duplicate_fetch :
    (initLearningSync none 0).2 = true ∧
    (initLearningSync none 0).1 = none ∧
    (initLearningSync (initLearningSync none 0).1 0).2 = true := by
  decide

/-- C4, amended: single flight holds for the node-detail fetch of selectNode:
for an id that is not current, not memoized and not pending, n back-to-back
concurrent selectNode calls issue exactly one network fetch — the first call
issues it and registers the pending promise, and every further caller joins
that in-flight request.  The initLearning content fetch has no such dedup
(see the counterexample). -/
theorem selectNode_single_flight (s : NodeState) (nodeId : String) (n : Nat)
    (hcur : s.currentNode.map NodeDetail.node_id ≠ some nodeId)
    (hcache : lookupKey s.nodesCache nodeId = none)
    (hpend : nodeId ∉ s.pendingRequests) (hn : 1 ≤ n) :
    (selectNodeSync s nodeId).2 = .fetchIssued ∧
    nodeId ∈ (selectNodeSync s nodeId).1.pendingRequests ∧
    (selectNodeMany s nodeId n).2 = 1 := by
  have hfirst : selectNodeSync s nodeId =
      ({ s with
          isLoading := true
          error := none
          pendingRequests := nodeId :: s.pendingRequests }, .fetchIssued) := by
    simp [selectNodeSync, hcur, hcache, hpend]
  obtain ⟨m, rfl⟩ : ∃ m, n = m + 1 := ⟨n - 1, by omega⟩
  refine ⟨by rw [hfirst], by rw [hfirst]; exact List.mem_cons_self _ _, ?_⟩
  have hrest := selectNodeMany_pending
    ({ s with
        isLoading := true
        error := none
        pendingRequests := nodeId :: s.pendingRequests }) nodeId m
    (by simpa using hcur) (by simpa using hcache) (List.mem_cons_self _ _)
  simp [selectNodeMany, hfirst, hrest]

/-- C4 witness: three concurrent selections of the uncached node n1. -/
theorem selectNode_single_flight_witness :
    (selectNodeSync initialNodeState "n1").2 = .fetchIssued ∧
    "n1" ∈ (selectNodeSync initialNodeState "n1").1.pendingRequests ∧
    (selectNodeMany initialNodeState "n1" 3).2 = 1 :=
  selectNode_single_flight initialNodeState "n1" 3 (by decide) (by decide)
    (by decide) (by decide)

/-- C6: hint gating (backend modelled from the spec).  With hint h defined at
level k, the request succeeds with exactly the text of hint k iff the
recorded count meets the threshold of hint k; below the threshold the store
action surfaces an explicit error — no lower hint is substituted. -/
theorem requestHint_threshold_gate (hints : List ExerciseHint) (count k : Nat)
    (h : ExerciseHint) (s : ExerciseState)
    (hfind : hints.find? (fun x => x.level = k) = some h) :
    (hintEndpoint hints count k = .ok h.text ↔ h.threshold ≤ count) ∧
    (h.threshold ≤ count →
      requestHintStore s (hintEndpoint hints count k) = (s, .ok h.text)) ∧
    (count < h.threshold →
      requestHintStore s (hintEndpoint hints count k) =
        ({ s with error := some "Hint not yet unlocked" },
          .error (some "Hint not yet unlocked"))) := by
  by_cases hth : h.threshold ≤ count
  · have he : hintEndpoint hints count k = .ok h.text := by
      simp [hintEndpoint, hfind, hth]
    exact ⟨by simp [he, hth], fun _ => by simp [requestHintStore, he],
      fun hlt => absurd hth (Nat.not_le_of_lt hlt)⟩
  · have he : hintEndpoint hints count k = .error (some "Hint not yet unlocked") := by
      simp [hintEndpoint, hfind, hth]
    exact ⟨by simp [he, hth], fun hh => absurd hh hth,
      fun _ => by simp [requestHintStore, he, errorOr]⟩

/-- C6 witness: on the two-hint ladder with recorded count 1, level 1
(threshold 1) is granted and level 2 (threshold 3) is rejected explicitly. -/
theorem requestHint_threshold_gate_witness :
    requestHintStore initialExerciseState (hintEndpoint hintsExample 1 1) =
      (initialExerciseState, .ok "re-read the prompt") ∧
    requestHintStore initialExerciseState (hintEndpoint hintsExample 1 2) =
      ({ initialExerciseState with error := some "Hint not yet unlocked" },
        .error (some "Hint not yet unlocked")) :=
  ⟨(requestHint_threshold_gate hintsExample 1 1 ⟨1, 1, "re-read the prompt"⟩
      initialExerciseState (by decide)).2.1 (by decide),
    (requestHint_threshold_gate hintsExample 1 2 ⟨2, 3, "use a loop"⟩
      initialExerciseState (by decide)).2.2 (by decide)⟩

/-- Helper: when every model response requests tool use, the loop is still
running after any number of model calls, from any start index. -/
theorem processMessageLoop_none_of_tool (f : Nat → ModelResponse)
    (h : ∀ j, (f j).stop_reason = "tool_use") :
    ∀ fuel s, processMessageLoop f fuel s = none := by
  intro fuel
  induction fuel with
  | zero => intro s; rfl
  | succ m ih =>
    intro s
    simp only [processMessageLoop, h s, if_pos]
    exact ih (s + 1)

/-- Helper: if the first i responses from index s on request tool use and
response s + i does not, the loop returns response s + i once the watch
window exceeds i. -/
theorem processMessageLoop_first_text (f : Nat → ModelResponse) :
    ∀ i s fuel, (∀ j, j < i → (f (s + j)).stop_reason = "tool_use") →
      (f (s + i)).stop_reason ≠ "tool_use" → i < fuel →
      processMessageLoop f fuel s = some (s + i, f (s + i)) := by
  intro i
  induction i with
  | zero =>
    intro s fuel hj hi hfuel
    obtain ⟨m, rfl⟩ : ∃ m, fuel = m + 1 := ⟨fuel - 1, by omega⟩
    simp only [Nat.add_zero] at hi ⊢
    simp [processMessageLoop, hi]
  | succ i ih =>
    intro s fuel hj hi hfuel
    obtain ⟨m, rfl⟩ : ∃ m, fuel = m + 1 := ⟨fuel - 1, by omega⟩
    have h0 : (f s).stop_reason = "tool_use" := by
      have hx := hj 0 (Nat.succ_pos i)
      simpa using hx
    have harg : s + (i + 1) = s + 1 + i := by omega
    rw [harg] at hi ⊢
    simp only [processMessageLoop, h0, if_pos]
    exact ih (s + 1) m
      (fun j hjlt => by
        have hx := hj (j + 1) (by omega)
        have he : s + (j + 1) = s + 1 + j := by omega
        rw [he] at hx
        exact hx)
      hi (by omega)

/-- C7, counterexample: the tool-calling loop has no iteration cap.  Against
a model that requests tool use on every response, the loop is still running
after 100 model calls — were there a hard cap of 5 to 10 rounds, it would
have stopped within 11. -/
theorem processMessageLoop_no_cap :
    processMessageLoop allToolUse 100 0 = none := by
  decide

/-- C7, amended: the loop terminates exactly when some response contains only
text: if every response requests tool use it runs forever (still unresolved
after any number of model calls), and if the first non-tool-use response is
response i, the loop stops there, returning it after i + 1 model calls; no
hard iteration cap exists. -/
theorem processMessageLoop_stops_iff_text (f : Nat → ModelResponse) :
    ((∀ j, (f j).stop_reason = "tool_use") →
      ∀ fuel, processMessageLoop f fuel 0 = none) ∧
    (∀ i fuel, (∀ j, j < i → (f j).stop_reason = "tool_use") →
      (f i).stop_reason ≠ "tool_use" → i < fuel →
      processMessageLoop f fuel 0 = some (i, f i)) := by
  constructor
  · intro h fuel
    exact processMessageLoop_none_of_tool f h fuel 0
  · intro i fuel hj hi hfuel
    have hx := processMessageLoop_first_text f i 0 fuel
      (fun j hjl => by simpa using hj j hjl) (by simpa using hi) hfuel
    simpa using hx

/-- C7 witness: the all-tool-use oracle is still running after 7 calls;
against two tool rounds followed by text, the loop stops at response 2. -/
theorem processMessageLoop_stops_iff_text_witness :
    processMessageLoop allToolUse 7 0 = none ∧
    processMessageLoop twoToolsThenText 5 0 = some (2, ⟨"end_turn", "final answer"⟩) := by
  constructor
  · exact (processMessageLoop_stops_iff_text allToolUse).1 (fun j => rfl) 7
  · have h := (processMessageLoop_stops_iff_text twoToolsThenText).2 2 5
      (fun j hj => by simp [twoToolsThenText, hj]) (by decide) (by decide)
    exact h.trans (by decide)
